import Mathlib

/-!
Verification of the policy-based mutex header (`include/ib0mutex.h`) and the
companion random-number module (`mysys_ssl/my_rnd.cc`).

The C++ sources are embedded shallowly:

* `my_rnd.cc`: the generator state is a structure of naturals (the `ulong`
  seeds never exceed `4 * 0x3FFFFFFF < 2^32`, so no wraparound occurs and
  plain `Nat` arithmetic is exact); the `double` results are modelled in `ℚ`
  (the divisions `seed1 / max_value_dbl` and `res / UINT_MAX` are the exact
  values the C code computes up to one final rounding that cannot cross the
  `[0,1)` boundary).
* `ib0mutex.h`: each mutex is a record of its fields; operations are state
  transformers that additionally emit the sequence of atomic / external
  actions they perform (atomic store vs atomic swap, futex wait/wake, policy
  hooks), so that claims about *which* primitive is invoked and in which
  order are propositions about the emitted trace.  Loops whose exit depends
  on other threads (`enter` spin/park loops) take the interfering values as
  an explicit oracle and a fuel bound, returning `none` when the fuel is
  exhausted.  The mutual-exclusion claim is settled on a small-step
  interleaving semantics of `N` threads running `enter; counter++; exit`.
-/

/-! ## Lock word states (`sync0types.h` values used by `ib0mutex.h`) -/

def MUTEX_STATE_UNLOCKED : Nat := 0

def MUTEX_STATE_LOCKED : Nat := 1

def MUTEX_STATE_WAITERS : Nat := 2

/-! ## `my_rnd.cc` -/

/-- The `my_rnd_struct` state (`seed1`, `seed2`, `max_value`,
`max_value_dbl`).  `max_value_dbl` mirrors `max_value` as the exact rational
value of the C `double`. -/
structure my_rnd_struct where
  seed1 : Nat
  seed2 : Nat
  max_value : Nat
  max_value_dbl : ℚ
deriving Repr, DecidableEq

/-- `my_rnd_init(rand_st, seed1, seed2)`: sets `max_value = 0x3FFFFFFF`,
`max_value_dbl = (double) max_value`, and reduces both seeds modulo
`max_value`. -/
def my_rnd_init (seed1 seed2 : Nat) : my_rnd_struct :=
  { max_value := 0x3FFFFFFF
    max_value_dbl := ((0x3FFFFFFF : Nat) : ℚ)
    seed1 := seed1 % 0x3FFFFFFF
    seed2 := seed2 % 0x3FFFFFFF }

/-- `my_rnd(rand_st)`: updates `seed1` first, then `seed2` using the already
updated `seed1`, and returns `seed1 / max_value_dbl` together with the
updated state. -/
def my_rnd (rand_st : my_rnd_struct) : ℚ × my_rnd_struct :=
  let seed1 := (rand_st.seed1 * 3 + rand_st.seed2) % rand_st.max_value
  let seed2 := (seed1 + rand_st.seed2 + 33) % rand_st.max_value
  ((seed1 : ℚ) / rand_st.max_value_dbl,
   { rand_st with seed1 := seed1, seed2 := seed2 })

/-- `UINT_MAX` on the platforms the source targets (32-bit `unsigned int`). -/
def UINT_MAX : Nat := 4294967295

/-- `my_rnd_ssl(rand_st)`: `rand_bytes = some res` models a successful
`RAND_bytes` call that produced the 32-bit value `res`; `none` models either
a failing call (`rc == 0`) or a build without an SSL library, in which case
the function falls through to `return my_rnd(rand_st)`. -/
def my_rnd_ssl (rand_bytes : Option Nat) (rand_st : my_rnd_struct) :
    ℚ × my_rnd_struct :=
  match rand_bytes with
  | some res => ((res : ℚ) / (UINT_MAX : ℚ), rand_st)
  | none => my_rnd rand_st

/-! ## `TTASFutexMutex` (`ib0mutex.h` lines 169-284) -/

/-- `TTASFutexMutex` state: the 32-bit `m_lock_word`. -/
structure TTASFutexMutex where
  m_lock_word : Nat
deriving Repr, DecidableEq

/-- `TTASFutexMutex::exit()`: `my_atomic_fas32_explicit(&m_lock_word,
MUTEX_STATE_UNLOCKED, MY_MEMORY_ORDER_RELEASE)`, then a
`futex(FUTEX_WAKE_PRIVATE, 1)` syscall iff the swapped-out value was
`MUTEX_STATE_WAITERS`.  Returns the new state and the number of waiters the
wake call asks the kernel to wake (`0` when no syscall is issued). -/
def TTASFutexMutex.exit (m : TTASFutexMutex) : TTASFutexMutex × Nat :=
  let prev := m.m_lock_word
  ({ m_lock_word := MUTEX_STATE_UNLOCKED },
   if prev = MUTEX_STATE_WAITERS then 1 else 0)

/-- `TTASFutexMutex::try_lock()`: strong CAS of `m_lock_word` from
`MUTEX_STATE_UNLOCKED` to `MUTEX_STATE_LOCKED` (acquire on success, relaxed
on failure); returns whether the CAS succeeded and the resulting state. -/
def TTASFutexMutex.try_lock (m : TTASFutexMutex) : Bool × TTASFutexMutex :=
  if m.m_lock_word = MUTEX_STATE_UNLOCKED then
    (true, { m_lock_word := MUTEX_STATE_LOCKED })
  else
    (false, m)

/-- Atomic / external actions `TTASFutexMutex::enter` performs, in program
order: a `try_lock` CAS attempt (with its outcome), a `ut_delay` call, a
`my_atomic_fas32` swap of the lock word to `WAITERS` (with the value it
replaced), and a `futex(FUTEX_WAIT_PRIVATE)` syscall. -/
inductive FAction where
  | tryLock (ok : Bool)
  | delay
  | fasWaiters (prev : Nat)
  | futexWait
deriving Repr, DecidableEq

/-- The spin loop of `TTASFutexMutex::enter`:
`for (n_spins = 0; n_spins < max_spins; n_spins++) { if (try_lock()) {...
return; } ut_delay(...); }`.  `tl n` is the outcome the CAS of attempt `n`
would observe (true iff the lock word is `UNLOCKED` at that instant — an
oracle for the other threads' interference); the fuel is the remaining
iteration budget `max_spins - n`.  Returns the emitted trace and `some n`
when attempt `n` succeeded, `none` when the loop ran out. -/
def spinPhase (tl : Nat → Bool) : Nat → Nat → List FAction × Option Nat
  | _, 0 => ([], none)
  | n, fuel + 1 =>
    if tl n then
      ([FAction.tryLock true], some n)
    else
      (FAction.tryLock false :: FAction.delay :: (spinPhase tl (n + 1) fuel).1,
       (spinPhase tl (n + 1) fuel).2)

/-- The park loop of `TTASFutexMutex::enter`:
`for (n_waits = 0;; n_waits++) { if (fas(&m_lock_word, WAITERS) == UNLOCKED)
break; futex_wait; }`.  `prev k` is the value the `k`-th swap replaces (the
oracle); the C loop is unbounded, so the embedding adds fuel and returns
`none` when it is exhausted.  On success returns `some n_waits`. -/
def parkPhase (prev : Nat → Nat) : Nat → Nat → List FAction × Option Nat
  | _, 0 => ([], none)
  | k, fuel + 1 =>
    if prev k = MUTEX_STATE_UNLOCKED then
      ([FAction.fasWaiters (prev k)], some k)
    else
      (FAction.fasWaiters (prev k) :: FAction.futexWait ::
         (parkPhase prev (k + 1) fuel).1,
       (parkPhase prev (k + 1) fuel).2)

/-- `TTASFutexMutex::enter(max_spins, max_delay, ...)`: the spin loop, then —
only if it failed — the park loop.  The second component is the argument
pair of the final `m_policy.add(n_spins, n_waits)` call (`none` when the
park-loop fuel ran out, which the real unbounded loop cannot do). -/
def TTASFutexMutex.enter (tl : Nat → Bool) (prev : Nat → Nat)
    (max_spins park_fuel : Nat) : List FAction × Option (Nat × Nat) :=
  match (spinPhase tl 0 max_spins).2 with
  | some n_spins => ((spinPhase tl 0 max_spins).1, some (n_spins, 0))
  | none =>
    match (parkPhase prev 0 park_fuel).2 with
    | some n_waits =>
      ((spinPhase tl 0 max_spins).1 ++ (parkPhase prev 0 park_fuel).1,
       some (max_spins, n_waits))
    | none =>
      ((spinPhase tl 0 max_spins).1 ++ (parkPhase prev 0 park_fuel).1, none)

/-- Number of `try_lock` attempts in a trace. -/
def countTryLock : List FAction → Nat
  | [] => 0
  | FAction.tryLock _ :: tr => countTryLock tr + 1
  | _ :: tr => countTryLock tr

/-- Number of failed `try_lock` attempts in a trace. -/
def countTryLockFail : List FAction → Nat
  | [] => 0
  | FAction.tryLock false :: tr => countTryLockFail tr + 1
  | _ :: tr => countTryLockFail tr

/-- Number of `ut_delay` calls in a trace. -/
def countDelay : List FAction → Nat
  | [] => 0
  | FAction.delay :: tr => countDelay tr + 1
  | _ :: tr => countDelay tr

/-- The value left in the lock word by the last write of the trace (`acc` is
the value before): a successful CAS writes `LOCKED`, a failed CAS writes
nothing, the swap always writes `WAITERS`. -/
def lastWrite : List FAction → Option Nat → Option Nat
  | [], acc => acc
  | FAction.tryLock true :: tr, _ => lastWrite tr (some MUTEX_STATE_LOCKED)
  | FAction.tryLock false :: tr, acc => lastWrite tr acc
  | FAction.fasWaiters _ :: tr, _ => lastWrite tr (some MUTEX_STATE_WAITERS)
  | _ :: tr, acc => lastWrite tr acc

/-! ## `TTASEventMutex` (`ib0mutex.h` lines 398-699) -/

/-- Atomic / external actions of `TTASEventMutex`'s lock-word code paths:
`my_atomic_storelong` to the lock word, `my_atomic_faslong` on the lock word
(the swap used by `tas_lock`), the plain read of `m_waiters`, and the call
to `signal()`. -/
inductive EvAction where
  | storeLock (v : Nat)
  | fasLock (v : Nat)
  | readWaiters (v : Nat)
  | signalCall
deriving Repr, DecidableEq

/-- `TTASEventMutex` state: lock word, waiter flag, event handle
(`m_event = 0` means no event has been created). -/
structure TTASEventMutex where
  m_lock_word : Nat
  m_waiters : Nat
  m_event : Nat
deriving Repr, DecidableEq

/-- `tas_lock()`: `my_atomic_faslong(&m_lock_word, MUTEX_STATE_LOCKED) ==
MUTEX_STATE_UNLOCKED` — an atomic swap; succeeds iff the replaced value was
`UNLOCKED`. -/
def TTASEventMutex.tas_lock (m : TTASEventMutex) :
    Bool × TTASEventMutex × List EvAction :=
  (m.m_lock_word == MUTEX_STATE_UNLOCKED,
   { m with m_lock_word := MUTEX_STATE_LOCKED },
   [EvAction.fasLock MUTEX_STATE_LOCKED])

/-- `tas_unlock()`: `my_atomic_storelong(&m_lock_word,
MUTEX_STATE_UNLOCKED)` — an atomic store of `UNLOCKED`. -/
def TTASEventMutex.tas_unlock (m : TTASEventMutex) :
    TTASEventMutex × List EvAction :=
  ({ m with m_lock_word := MUTEX_STATE_UNLOCKED },
   [EvAction.storeLock MUTEX_STATE_UNLOCKED])

/-- `TTASEventMutex::exit()`: `tas_unlock(); if (m_waiters != 0) signal();`.
Returns the new state and the emitted action trace. -/
def TTASEventMutex.exit (m : TTASEventMutex) : TTASEventMutex × List EvAction :=
  let r := m.tas_unlock
  if r.1.m_waiters ≠ 0 then
    (r.1, r.2 ++ [EvAction.readWaiters r.1.m_waiters, EvAction.signalCall])
  else
    (r.1, r.2 ++ [EvAction.readWaiters r.1.m_waiters])

/-- `set_waiters()`: `m_waiters = 1; os_wmb;`. -/
def TTASEventMutex.set_waiters (m : TTASEventMutex) : TTASEventMutex :=
  { m with m_waiters := 1 }

/-- `clear_waiters()`: `m_waiters = 0; os_wmb;`. -/
def TTASEventMutex.clear_waiters (m : TTASEventMutex) : TTASEventMutex :=
  { m with m_waiters := 0 }

/-- The `ut_a` preconditions of `TTASEventMutex::init`: `m_event == 0` and
`m_lock_word == MUTEX_STATE_UNLOCKED`. -/
def TTASEventMutex.initAssertions (m : TTASEventMutex) : Bool :=
  m.m_event == 0 && m.m_lock_word == MUTEX_STATE_UNLOCKED

/-- `TTASEventMutex::init(id, filename, line)`: `m_event =
os_event_create(sync_latch_get_name(id))`; `event_handle` stands for the
handle `os_event_create` returns (never the null handle `0`). -/
def TTASEventMutex.init (event_handle : Nat) (m : TTASEventMutex) :
    TTASEventMutex :=
  { m with m_event := event_handle }

/-- The `ut_ad` precondition of `TTASEventMutex::destroy`: `m_lock_word ==
MUTEX_STATE_UNLOCKED`. -/
def TTASEventMutex.destroyAssertions (m : TTASEventMutex) : Bool :=
  m.m_lock_word == MUTEX_STATE_UNLOCKED

/-- `TTASEventMutex::destroy()`: `os_event_destroy(m_event); m_event = 0;`. -/
def TTASEventMutex.destroy (m : TTASEventMutex) : TTASEventMutex :=
  { m with m_event := 0 }

/-! ## `OSTrackMutex` (`ib0mutex.h` lines 36-159) -/

/-- The debug tracking state of `OSTrackMutex` (`UNIV_DEBUG` fields). -/
structure OSTrackMutex where
  m_freed : Bool
  m_locked : Bool
  m_destroy_at_exit : Bool
deriving Repr, DecidableEq

/-- The conjunction of the `ut_ad` assertions of `OSTrackMutex::destroy()`:
`ut_ad(!m_locked)` and `ut_ad(innodb_calling_exit || !m_freed)`
(`innodb_calling_exit` is the engine-global shutdown flag). -/
def OSTrackMutex.destroyAssertions (innodb_calling_exit : Bool)
    (m : OSTrackMutex) : Bool :=
  !m.m_locked && (innodb_calling_exit || !m.m_freed)

/-- `OSTrackMutex::destroy()`: `m_mutex.destroy(); ut_d(m_freed = true);`. -/
def OSTrackMutex.destroy (m : OSTrackMutex) : OSTrackMutex :=
  { m with m_freed := true }

/-! ## `PolicyMutex` facade (`ib0mutex.h` lines 703-942) -/

/-- The implementation operations `PolicyMutex` delegates to, over an
implementation state type `σ` (the template parameter `MutexImpl`). -/
structure MutexImplOps (σ : Type) where
  try_lock : σ → Bool × σ

/-- The policy hook invocations `PolicyMutex` makes, in program order. -/
inductive PolicyHook where
  | enterHook
  | lockedHook
deriving Repr, DecidableEq

/-- `PolicyMutex` state: the embedded implementation instance `m_impl`. -/
structure PolicyMutex (σ : Type) where
  m_impl : σ

/-- `PolicyMutex::trylock(name, line)`: `int ret = m_impl.try_lock() ? 0 : 1;
if (ret == 0) { policy().enter(...); policy().locked(...); } return ret;`.
Returns `ret`, the facade state after the call, and the policy hooks invoked
(in order); an empty hook list means the policy state is untouched. -/
def PolicyMutex.trylock {σ : Type} (ops : MutexImplOps σ)
    (pm : PolicyMutex σ) : Nat × PolicyMutex σ × List PolicyHook :=
  let r := ops.try_lock pm.m_impl
  let ret := if r.1 then 0 else 1
  if ret = 0 then
    (ret, { m_impl := r.2 }, [PolicyHook.enterHook, PolicyHook.lockedHook])
  else
    (ret, { m_impl := r.2 }, [])

/-! ## Interleaving semantics for mutual exclusion (C1)

`N` threads each run `enter; counter++; exit` `K` times on one mutex.  The
shared state is the lock word and the counter.  Every implementation D-G
acquires through an atomic read-modify-write on the lock word that succeeds
exactly when the replaced value was `UNLOCKED` (the CAS of `TTASMutex` /
`TTASFutexMutex::try_lock`, the `my_atomic_faslong` swap of
`TTASEventMutex::tas_lock`, the swap-to-`WAITERS` of
`TTASFutexMutex::enter`'s park loop, the OS mutex acquire of `OSTrackMutex`),
writing a non-`UNLOCKED` value (`LOCKED` or `WAITERS`); a failed attempt
leaves the word unchanged or writes `WAITERS` (the failed park swap);
release writes `UNLOCKED`.  The `PolicyMutex` hooks read/write only policy
state, never the lock word or the shared counter, so they add no
transitions.  Spinning, delays, yields, futex waits and event parking only
delay *when* a thread's next attempt happens, which an interleaving step
relation already quantifies over. -/

/-- Program counter of one thread: before the critical section, inside it
(about to increment), or after the increment (about to release). -/
inductive Pc where
  | acquiring
  | critical
  | releasing
deriving Repr, DecidableEq

/-- One thread's local state: its program counter and how many full
`enter; counter++; exit` iterations it has completed. -/
structure ThreadSt where
  pc : Pc
  iters : Nat
deriving Repr, DecidableEq

/-- Global configuration: lock word, shared counter, and the `N` threads. -/
structure Config (N : Nat) where
  lockWord : Nat
  counter : Nat
  threads : Fin N → ThreadSt

/-- All threads start before their first acquisition, the counter is 0 and
the mutex is `UNLOCKED`. -/
def initConfig (N : Nat) : Config N :=
  { lockWord := MUTEX_STATE_UNLOCKED, counter := 0,
    threads := fun _ => { pc := Pc.acquiring, iters := 0 } }

/-- Thread `t` holds the mutex: it is between a successful acquisition and
its release. -/
def holdsMutex {N : Nat} (c : Config N) (t : Fin N) : Prop :=
  (c.threads t).pc ≠ Pc.acquiring

/-- Counting weight of one thread: completed iterations, plus one for an
increment already performed in the current critical section. -/
def threadWeight (s : ThreadSt) : Nat :=
  s.iters + (if s.pc = Pc.releasing then 1 else 0)

/-- One atomic step of the interleaved system. -/
inductive MutexStep (N K : Nat) : Config N → Config N → Prop where
  /-- a successful acquiring RMW: the replaced lock-word value was
  `UNLOCKED`; the write is `LOCKED` (CAS / `tas_lock` swap) or `WAITERS`
  (`TTASFutexMutex` park swap). -/
  | acquire (c : Config N) (t : Fin N) (w : Nat)
      (hpc : (c.threads t).pc = Pc.acquiring)
      (hit : (c.threads t).iters < K)
      (hfree : c.lockWord = MUTEX_STATE_UNLOCKED)
      (hw : w = MUTEX_STATE_LOCKED ∨ w = MUTEX_STATE_WAITERS) :
      MutexStep N K c
        { lockWord := w, counter := c.counter,
          threads := Function.update c.threads t
            { pc := Pc.critical, iters := (c.threads t).iters } }
  /-- a failed acquiring RMW: the lock word was held; a failed CAS leaves it
  unchanged, a failed park swap rewrites it to `WAITERS`. -/
  | acquireFail (c : Config N) (t : Fin N) (w : Nat)
      (hpc : (c.threads t).pc = Pc.acquiring)
      (hheld : c.lockWord ≠ MUTEX_STATE_UNLOCKED)
      (hw : w = c.lockWord ∨ w = MUTEX_STATE_WAITERS) :
      MutexStep N K c
        { lockWord := w, counter := c.counter, threads := c.threads }
  /-- the critical section: increment the shared counter. -/
  | increment (c : Config N) (t : Fin N)
      (hpc : (c.threads t).pc = Pc.critical) :
      MutexStep N K c
        { lockWord := c.lockWord, counter := c.counter + 1,
          threads := Function.update c.threads t
            { pc := Pc.releasing, iters := (c.threads t).iters } }
  /-- the release: write `UNLOCKED` to the lock word, completing the
  iteration. -/
  | release (c : Config N) (t : Fin N)
      (hpc : (c.threads t).pc = Pc.releasing) :
      MutexStep N K c
        { lockWord := MUTEX_STATE_UNLOCKED, counter := c.counter,
          threads := Function.update c.threads t
            { pc := Pc.acquiring, iters := (c.threads t).iters + 1 } }

/-- Configurations reachable from the initial one by interleaved steps. -/
def MutexReachable (N K : Nat) (c : Config N) : Prop :=
  Relation.ReflTransGen (MutexStep N K) (initConfig N) c

/-- The inductive invariant: at most one holder; an `UNLOCKED` lock word
means no holder; the counter equals the summed thread weights. -/
def MutexInv {N : Nat} (c : Config N) : Prop :=
  (∀ t u : Fin N, holdsMutex c t → holdsMutex c u → t = u) ∧
  (c.lockWord = MUTEX_STATE_UNLOCKED → ∀ t, ¬holdsMutex c t) ∧
  c.counter = ∑ t, threadWeight (c.threads t)

/-- Intermediate configurations of a complete two-thread, one-iteration run
(used to exhibit a nontrivial reachable configuration). -/
def demoC1 : Config 2 :=
  { lockWord := MUTEX_STATE_LOCKED, counter := 0,
    threads := fun u => if u = 0 then { pc := Pc.critical, iters := 0 }
                        else { pc := Pc.acquiring, iters := 0 } }

/-- After thread 0's increment. -/
def demoC2 : Config 2 :=
  { lockWord := MUTEX_STATE_LOCKED, counter := 1,
    threads := fun u => if u = 0 then { pc := Pc.releasing, iters := 0 }
                        else { pc := Pc.acquiring, iters := 0 } }

/-- After thread 0's release. -/
def demoC3 : Config 2 :=
  { lockWord := MUTEX_STATE_UNLOCKED, counter := 1,
    threads := fun u => if u = 0 then { pc := Pc.acquiring, iters := 1 }
                        else { pc := Pc.acquiring, iters := 0 } }

/-- After thread 1's acquisition. -/
def demoC4 : Config 2 :=
  { lockWord := MUTEX_STATE_LOCKED, counter := 1,
    threads := fun u => if u = 0 then { pc := Pc.acquiring, iters := 1 }
                        else { pc := Pc.critical, iters := 0 } }

/-- After thread 1's increment. -/
def demoC5 : Config 2 :=
  { lockWord := MUTEX_STATE_LOCKED, counter := 2,
    threads := fun u => if u = 0 then { pc := Pc.acquiring, iters := 1 }
                        else { pc := Pc.releasing, iters := 0 } }

/-- The final configuration: both threads completed one iteration. -/
def demoConfig : Config 2 :=
  { lockWord := MUTEX_STATE_UNLOCKED, counter := 2,
    threads := fun _ => { pc := Pc.acquiring, iters := 1 } }

/-! ### Theorems -/

/-- C3: `TTASFutexMutex::exit()` swaps the lock word to `UNLOCKED`; the
swapped-out value decides the wake: a `futex_wake(&word, 1)` of exactly one
waiter is issued iff that value was `WAITERS`; afterwards the lock word is
`UNLOCKED`. -/
theorem TTASFutexMutex_exit_spec (m : TTASFutexMutex) :
    (TTASFutexMutex.exit m).1.m_lock_word = MUTEX_STATE_UNLOCKED ∧
    ((TTASFutexMutex.exit m).2 = 1 ↔ m.m_lock_word = MUTEX_STATE_WAITERS) ∧
    ((TTASFutexMutex.exit m).2 = 1 ∨ (TTASFutexMutex.exit m).2 = 0) := by
  refine ⟨rfl, ?_, ?_⟩ <;> simp only [TTASFutexMutex.exit] <;>
    by_cases h : m.m_lock_word = MUTEX_STATE_WAITERS <;> simp [h]

/-- C7: one `my_rnd` step from any in-range state (`my_rnd_init` always
produces such a state): `seed1` is updated first, `seed2` second using the
new `seed1`, the result is the new `seed1 / 0x3FFFFFFF`, and it lies in
`[0, 1)`. -/
theorem my_rnd_step_spec (s1 s2 : Nat)
    (h1 : s1 < 0x3FFFFFFF) (h2 : s2 < 0x3FFFFFFF) :
    ∀ st : my_rnd_struct,
      st = { seed1 := s1, seed2 := s2, max_value := 0x3FFFFFFF,
             max_value_dbl := ((0x3FFFFFFF : Nat) : ℚ) } →
      (my_rnd st).2.seed1 = (s1 * 3 + s2) % 0x3FFFFFFF ∧
      (my_rnd st).2.seed2 = ((my_rnd st).2.seed1 + s2 + 33) % 0x3FFFFFFF ∧
      (my_rnd st).2.max_value = 0x3FFFFFFF ∧
      (my_rnd st).1 = (((my_rnd st).2.seed1 : Nat) : ℚ) / ((0x3FFFFFFF : Nat) : ℚ) ∧
      0 ≤ (my_rnd st).1 ∧ (my_rnd st).1 < 1 ∧
      (∀ a b : Nat, (my_rnd_init a b).seed1 < 0x3FFFFFFF ∧
        (my_rnd_init a b).seed2 < 0x3FFFFFFF ∧
        (my_rnd_init a b).max_value = 0x3FFFFFFF) := by
  intro st hst
  subst hst
  have hmax : (0 : ℚ) < ((0x3FFFFFFF : Nat) : ℚ) := by norm_num
  have hlt : (s1 * 3 + s2) % 0x3FFFFFFF < 0x3FFFFFFF :=
    Nat.mod_lt _ (by norm_num)
  have hval : (my_rnd { seed1 := s1, seed2 := s2, max_value := 0x3FFFFFFF,
                        max_value_dbl := ((0x3FFFFFFF : Nat) : ℚ) }).1 =
      (((s1 * 3 + s2) % 0x3FFFFFFF : Nat) : ℚ) / ((0x3FFFFFFF : Nat) : ℚ) := rfl
  refine ⟨rfl, rfl, rfl, rfl, ?_, ?_, ?_⟩
  · rw [hval]
    exact div_nonneg (Nat.cast_nonneg _) (le_of_lt hmax)
  · rw [hval, div_lt_one hmax]
    exact_mod_cast hlt
  · intro a b
    exact ⟨Nat.mod_lt _ (by norm_num), Nat.mod_lt _ (by norm_num), rfl⟩

/-- witness for C7 at `seed1 = 5`, `seed2 = 7`. -/
theorem my_rnd_step_spec_witness :
    (5 : Nat) < 0x3FFFFFFF ∧ (7 : Nat) < 0x3FFFFFFF ∧
    (my_rnd { seed1 := 5, seed2 := 7, max_value := 0x3FFFFFFF,
              max_value_dbl := ((0x3FFFFFFF : Nat) : ℚ) }).2.seed1 =
      (5 * 3 + 7) % 0x3FFFFFFF :=
  ⟨by norm_num, by norm_num,
    ((my_rnd_step_spec 5 7 (by norm_num) (by norm_num) _ rfl).1)⟩

/-- C8: `my_rnd_ssl` falls back to `my_rnd` on SSL failure or absence — the
returned value and the state update are exactly `my_rnd`'s — and on SSL
success returns `res / UINT_MAX` without touching the state. -/
theorem my_rnd_ssl_spec :
    (∀ st : my_rnd_struct,
      (my_rnd_ssl none st).1 = (my_rnd st).1 ∧
      (my_rnd_ssl none st).2 = (my_rnd st).2) ∧
    (∀ (res : Nat) (st : my_rnd_struct),
      (my_rnd_ssl (some res) st).1 = (res : ℚ) / (UINT_MAX : ℚ) ∧
      (my_rnd_ssl (some res) st).2 = st) :=
  ⟨fun _ => ⟨rfl, rfl⟩, fun _ _ => ⟨rfl, rfl⟩⟩

/-- Helper: `countTryLock` distributes over append. -/
theorem countTryLock_append (l1 l2 : List FAction) :
    countTryLock (l1 ++ l2) = countTryLock l1 + countTryLock l2 := by
  induction l1 with
  | nil => simp [countTryLock]
  | cons a tr ih => cases a <;> simp [countTryLock, ih] <;> omega

/-- Helper: `countTryLockFail` distributes over append. -/
theorem countTryLockFail_append (l1 l2 : List FAction) :
    countTryLockFail (l1 ++ l2) = countTryLockFail l1 + countTryLockFail l2 := by
  induction l1 with
  | nil => simp [countTryLockFail]
  | cons a tr ih =>
    cases a with
    | tryLock ok => cases ok <;> simp [countTryLockFail, ih] <;> omega
    | _ => simp [countTryLockFail, ih]

/-- Helper: `countDelay` distributes over append. -/
theorem countDelay_append (l1 l2 : List FAction) :
    countDelay (l1 ++ l2) = countDelay l1 + countDelay l2 := by
  induction l1 with
  | nil => simp [countDelay]
  | cons a tr ih => cases a <;> simp [countDelay, ih] <;> omega

/-- Helper: `lastWrite` over an append threads the accumulator. -/
theorem lastWrite_append (l1 l2 : List FAction) (acc : Option Nat) :
    lastWrite (l1 ++ l2) acc = lastWrite l2 (lastWrite l1 acc) := by
  induction l1 generalizing acc with
  | nil => rfl
  | cons a tr ih =>
    cases a with
    | tryLock ok => cases ok <;> simp [lastWrite, ih]
    | _ => simp [lastWrite, ih]

/-- Helper: the spin loop makes at most `fuel` (= remaining budget)
`try_lock` attempts. -/
theorem spinPhase_tryLock_le (tl : Nat → Bool) :
    ∀ fuel n, countTryLock (spinPhase tl n fuel).1 ≤ fuel := by
  intro fuel
  induction fuel with
  | zero => intro n; simp [spinPhase, countTryLock]
  | succ f ih =>
    intro n
    by_cases h : tl n
    · simp [spinPhase, h, countTryLock]
    · have := ih (n + 1)
      simp [spinPhase, h, countTryLock]
      omega

/-- Helper: the spin loop calls `ut_delay` exactly once per failed
`try_lock` attempt. -/
theorem spinPhase_delay_eq (tl : Nat → Bool) :
    ∀ fuel n,
      countDelay (spinPhase tl n fuel).1 = countTryLockFail (spinPhase tl n fuel).1 := by
  intro fuel
  induction fuel with
  | zero => intro n; simp [spinPhase, countDelay, countTryLockFail]
  | succ f ih =>
    intro n
    by_cases h : tl n
    · simp [spinPhase, h, countDelay, countTryLockFail]
    · simp [spinPhase, h, countDelay, countTryLockFail, ih (n + 1)]

/-- Helper: a successful spin loop succeeded at an attempt index inside the
budget, with a successful CAS there, and its last lock-word write is the
CAS's `LOCKED`. -/
theorem spinPhase_some (tl : Nat → Bool) :
    ∀ fuel n i, (spinPhase tl n fuel).2 = some i →
      n ≤ i ∧ i < n + fuel ∧ tl i = true ∧
      ∀ acc, lastWrite (spinPhase tl n fuel).1 acc = some MUTEX_STATE_LOCKED := by
  intro fuel
  induction fuel with
  | zero => intro n i h; simp [spinPhase] at h
  | succ f ih =>
    intro n i h
    by_cases ht : tl n
    · simp [spinPhase, ht] at h
      subst h
      exact ⟨le_refl n, by omega, ht, fun acc => by simp [spinPhase, ht, lastWrite]⟩
    · simp only [spinPhase, ht, if_false] at h
      obtain ⟨h1, h2, h3, h4⟩ := ih (n + 1) i h
      refine ⟨by omega, by omega, h3, fun acc => ?_⟩
      simp [spinPhase, ht, lastWrite, h4]

/-- Helper: a failed spin loop emits no lock-word write at all. -/
theorem spinPhase_none (tl : Nat → Bool) :
    ∀ fuel n, (spinPhase tl n fuel).2 = none →
      ∀ acc, lastWrite (spinPhase tl n fuel).1 acc = acc := by
  intro fuel
  induction fuel with
  | zero => intro n _ acc; simp [spinPhase, lastWrite]
  | succ f ih =>
    intro n h acc
    by_cases ht : tl n
    · simp [spinPhase, ht] at h
    · simp only [spinPhase, ht, if_false] at h ⊢
      simp [lastWrite, ih (n + 1) h acc]

/-- Helper: the park loop emits no `try_lock` attempt and no `ut_delay`. -/
theorem parkPhase_counts (prev : Nat → Nat) :
    ∀ fuel k,
      countTryLock (parkPhase prev k fuel).1 = 0 ∧
      countTryLockFail (parkPhase prev k fuel).1 = 0 ∧
      countDelay (parkPhase prev k fuel).1 = 0 := by
  intro fuel
  induction fuel with
  | zero => intro k; simp [parkPhase, countTryLock, countTryLockFail, countDelay]
  | succ f ih =>
    intro k
    by_cases h : prev k = MUTEX_STATE_UNLOCKED
    · simp [parkPhase, h, countTryLock, countTryLockFail, countDelay]
    · obtain ⟨i1, i2, i3⟩ := ih (k + 1)
      simp [parkPhase, h, countTryLock, countTryLockFail, countDelay, i1, i2, i3]

/-- Helper: a successful park loop acquired at the first swap whose replaced
value was `UNLOCKED`; every earlier swap replaced a non-`UNLOCKED` value,
and the last lock-word write is the swap's `WAITERS`. -/
theorem parkPhase_some (prev : Nat → Nat) :
    ∀ fuel k j, (parkPhase prev k fuel).2 = some j →
      k ≤ j ∧ prev j = MUTEX_STATE_UNLOCKED ∧
      (∀ x, k ≤ x → x < j → prev x ≠ MUTEX_STATE_UNLOCKED) ∧
      ∀ acc, lastWrite (parkPhase prev k fuel).1 acc = some MUTEX_STATE_WAITERS := by
  intro fuel
  induction fuel with
  | zero => intro k j h; simp [parkPhase] at h
  | succ f ih =>
    intro k j h
    by_cases hp : prev k = MUTEX_STATE_UNLOCKED
    · simp [parkPhase, hp] at h
      subst h
      exact ⟨le_refl k, hp, fun x hx hx' => by omega,
        fun acc => by simp [parkPhase, hp, lastWrite]⟩
    · simp only [parkPhase, hp, if_false] at h
      obtain ⟨h1, h2, h3, h4⟩ := ih (k + 1) j h
      refine ⟨by omega, h2, fun x hx hx' => ?_, fun acc => ?_⟩
      · rcases Nat.eq_or_lt_of_le hx with rfl | hlt
        · exact hp
        · exact h3 x hlt hx'
      · simp [parkPhase, hp, lastWrite, h4]

/-- C4: `TTASFutexMutex::enter` — the spin phase makes at most `max_spins`
`try_lock` attempts (the budget is never grown), with a `ut_delay` between
attempts (one per failure); a success at attempt `i` records
`policy.add(i, 0)` and leaves the lock word `LOCKED`; otherwise the park
phase swaps the lock word to `WAITERS`, acquiring exactly at the first swap
whose replaced value was `UNLOCKED`, and records
`policy.add(max_spins, n_waits)`. -/
theorem TTASFutexMutex_enter_spec (tl : Nat → Bool) (prev : Nat → Nat)
    (max_spins park_fuel : Nat) :
    countTryLock (TTASFutexMutex.enter tl prev max_spins park_fuel).1 ≤ max_spins ∧
    countDelay (TTASFutexMutex.enter tl prev max_spins park_fuel).1 =
      countTryLockFail (TTASFutexMutex.enter tl prev max_spins park_fuel).1 ∧
    (∀ i, (spinPhase tl 0 max_spins).2 = some i →
      (TTASFutexMutex.enter tl prev max_spins park_fuel).2 = some (i, 0) ∧
      i < max_spins ∧ tl i = true ∧
      lastWrite (TTASFutexMutex.enter tl prev max_spins park_fuel).1 none =
        some MUTEX_STATE_LOCKED) ∧
    ((spinPhase tl 0 max_spins).2 = none →
      ∀ k, (parkPhase prev 0 park_fuel).2 = some k →
        (TTASFutexMutex.enter tl prev max_spins park_fuel).2 = some (max_spins, k) ∧
        prev k = MUTEX_STATE_UNLOCKED ∧
        (∀ j, j < k → prev j ≠ MUTEX_STATE_UNLOCKED) ∧
        lastWrite (TTASFutexMutex.enter tl prev max_spins park_fuel).1 none =
          some MUTEX_STATE_WAITERS) := by
  rcases hs : (spinPhase tl 0 max_spins).2 with _ | i
  · rcases hp : (parkPhase prev 0 park_fuel).2 with _ | k
    · simp only [TTASFutexMutex.enter, hs, hp]
      obtain ⟨p1, p2, p3⟩ := parkPhase_counts prev park_fuel 0
      refine ⟨?_, ?_, ?_, ?_⟩
      · rw [countTryLock_append, p1]
        simpa using spinPhase_tryLock_le tl max_spins 0
      · rw [countDelay_append, countTryLockFail_append, p2, p3,
          spinPhase_delay_eq tl max_spins 0]
      · intro i hi; simp [hs] at hi
      · intro _ k hk; simp [hp] at hk
    · simp only [TTASFutexMutex.enter, hs, hp]
      obtain ⟨p1, p2, p3⟩ := parkPhase_counts prev park_fuel 0
      obtain ⟨q1, q2, q3, q4⟩ := parkPhase_some prev park_fuel 0 k hp
      refine ⟨?_, ?_, ?_, ?_⟩
      · rw [countTryLock_append, p1]
        simpa using spinPhase_tryLock_le tl max_spins 0
      · rw [countDelay_append, countTryLockFail_append, p2, p3,
          spinPhase_delay_eq tl max_spins 0]
      · intro i hi; simp [hs] at hi
      · intro _ k' hk'
        injection hk' with hk'
        subst hk'
        refine ⟨rfl, q2, fun j hj => q3 j (Nat.zero_le j) hj, ?_⟩
        rw [lastWrite_append, q4]
  · obtain ⟨w1, w2, w3, w4⟩ := spinPhase_some tl max_spins 0 i hs
    simp only [TTASFutexMutex.enter, hs]
    refine ⟨spinPhase_tryLock_le tl max_spins 0, spinPhase_delay_eq tl max_spins 0,
      ?_, ?_⟩
    · intro i' hi'
      injection hi' with hi'
      subst hi'
      exact ⟨rfl, by omega, w3, w4 none⟩
    · intro hnone; simp at hnone

/-- C2-supporting theorem: `TTASEventMutex::exit()` leaves the lock word
`UNLOCKED` and its first emitted action is an atomic *store* of `UNLOCKED`
(`my_atomic_storelong`); no atomic swap (`my_atomic_faslong`, the primitive
`tas_lock` uses and the one the `tas_unlock` comment promises) occurs
anywhere in the trace; `signal()` is invoked iff the waiter flag read after
the store is nonzero. -/
theorem TTASEventMutex_exit_store_not_swap (m : TTASEventMutex) :
    (TTASEventMutex.exit m).1.m_lock_word = MUTEX_STATE_UNLOCKED ∧
    (TTASEventMutex.exit m).2.head? = some (EvAction.storeLock MUTEX_STATE_UNLOCKED) ∧
    (∀ v, EvAction.fasLock v ∉ (TTASEventMutex.exit m).2) ∧
    (EvAction.signalCall ∈ (TTASEventMutex.exit m).2 ↔ m.m_waiters ≠ 0) ∧
    (TTASEventMutex.exit m).1.m_waiters = m.m_waiters ∧
    (TTASEventMutex.exit m).1.m_event = m.m_event := by
  by_cases hw : m.m_waiters = 0 <;>
    simp [TTASEventMutex.exit, TTASEventMutex.tas_unlock, hw]

/-- C5: `PolicyMutex::trylock` returns 0 iff the implementation's `try_lock`
succeeded and 1 otherwise; on failure no policy hook runs (the policy state
is untouched); on success exactly the two hooks run, `enter` before
`locked`, and they run against the post-acquisition implementation state —
instantiated at `TTASFutexMutex`, that state's lock word is already
`LOCKED`. -/
theorem PolicyMutex_trylock_spec {σ : Type} (ops : MutexImplOps σ)
    (pm : PolicyMutex σ) :
    ((PolicyMutex.trylock ops pm).1 = 0 ∨ (PolicyMutex.trylock ops pm).1 = 1) ∧
    ((PolicyMutex.trylock ops pm).1 = 0 ↔ (ops.try_lock pm.m_impl).1 = true) ∧
    ((ops.try_lock pm.m_impl).1 = false →
      (PolicyMutex.trylock ops pm).1 = 1 ∧ (PolicyMutex.trylock ops pm).2.2 = []) ∧
    ((ops.try_lock pm.m_impl).1 = true →
      (PolicyMutex.trylock ops pm).2.2 = [PolicyHook.enterHook, PolicyHook.lockedHook]) ∧
    (PolicyMutex.trylock ops pm).2.1.m_impl = (ops.try_lock pm.m_impl).2 ∧
    (∀ fm : TTASFutexMutex,
      (PolicyMutex.trylock ⟨TTASFutexMutex.try_lock⟩ ⟨fm⟩).1 = 0 →
      (PolicyMutex.trylock ⟨TTASFutexMutex.try_lock⟩ ⟨fm⟩).2.1.m_impl.m_lock_word =
        MUTEX_STATE_LOCKED) := by
  refine ⟨?_, ?_, ?_, ?_, ?_, ?_⟩
  · by_cases hb : (ops.try_lock pm.m_impl).1 <;> simp [PolicyMutex.trylock, hb]
  · by_cases hb : (ops.try_lock pm.m_impl).1 <;> simp [PolicyMutex.trylock, hb]
  · intro hb; simp [PolicyMutex.trylock, hb]
  · intro hb; simp [PolicyMutex.trylock, hb]
  · by_cases hb : (ops.try_lock pm.m_impl).1 <;> simp [PolicyMutex.trylock, hb]
  · intro fm h
    by_cases hf : fm.m_lock_word = MUTEX_STATE_UNLOCKED
    · simp [PolicyMutex.trylock, TTASFutexMutex.try_lock, hf]
    · simp [PolicyMutex.trylock, TTASFutexMutex.try_lock, hf] at h

/-- C6 counterexample: with the engine shutdown flag `innodb_calling_exit`
set, `OSTrackMutex::destroy()`'s assertions pass on a mutex that is already
freed — so "the assertions fail on an already freed mutex" does not hold
unconditionally. -/
theorem OSTrackMutex_destroy_freed_ok :
    OSTrackMutex.destroyAssertions true
      { m_freed := true, m_locked := false, m_destroy_at_exit := true } = true ∧
    ({ m_freed := true, m_locked := false, m_destroy_at_exit := true } :
      OSTrackMutex).m_freed = true :=
  ⟨rfl, rfl⟩

/-- C6 as amended: `destroy()` asserts `!m_locked` and
`innodb_calling_exit || !m_freed`; when `innodb_calling_exit` is unset the
precondition is exactly `!freed && !locked`; a locked mutex always fails the
assertions; during shutdown an already-freed (unlocked) mutex is tolerated;
after `destroy()` the tracking state satisfies `freed`. -/
theorem OSTrackMutex_destroy_spec (innodb_calling_exit : Bool)
    (m : OSTrackMutex) :
    (innodb_calling_exit = false →
      (OSTrackMutex.destroyAssertions innodb_calling_exit m = true ↔
        m.m_freed = false ∧ m.m_locked = false)) ∧
    (OSTrackMutex.destroyAssertions innodb_calling_exit m = true →
      m.m_locked = false) ∧
    (m.m_locked = false → innodb_calling_exit = true →
      OSTrackMutex.destroyAssertions innodb_calling_exit m = true) ∧
    (OSTrackMutex.destroy m).m_freed = true := by
  rcases m with ⟨f, l, d⟩
  cases f <;> cases l <;> cases innodb_calling_exit <;>
    simp [OSTrackMutex.destroyAssertions, OSTrackMutex.destroy]

/-- C10: on an initialized (`m_event ≠ 0`), unlocked `TTASEventMutex`,
`destroy()`'s precondition holds, `destroy()` resets `m_event` to 0, and the
sequence `destroy(); init(id, file, line)` satisfies `init`'s `ut_a`
preconditions and re-establishes a nonzero event handle; the lock-word
operations never touch `m_event`. -/
theorem TTASEventMutex_reinit_spec (m : TTASEventMutex) (h : Nat)
    (he : m.m_event ≠ 0) (hl : m.m_lock_word = MUTEX_STATE_UNLOCKED)
    (hh : h ≠ 0) :
    TTASEventMutex.destroyAssertions m = true ∧
    m.destroy.m_event = 0 ∧
    TTASEventMutex.initAssertions m.destroy = true ∧
    (TTASEventMutex.init h m.destroy).m_event = h ∧
    (TTASEventMutex.init h m.destroy).m_event ≠ 0 ∧
    (∀ m' : TTASEventMutex,
      (m'.tas_lock).2.1.m_event = m'.m_event ∧
      (m'.tas_unlock).1.m_event = m'.m_event ∧
      (m'.exit).1.m_event = m'.m_event ∧
      m'.set_waiters.m_event = m'.m_event ∧
      m'.clear_waiters.m_event = m'.m_event) := by
  refine ⟨?_, rfl, ?_, rfl, hh, ?_⟩
  · simp [TTASEventMutex.destroyAssertions, hl]
  · simp [TTASEventMutex.initAssertions, TTASEventMutex.destroy, hl]
  · intro m'
    refine ⟨rfl, rfl, ?_, rfl, rfl⟩
    by_cases hw : m'.m_waiters = 0 <;>
      simp [TTASEventMutex.exit, TTASEventMutex.tas_unlock, hw]

/-- witness for C10 at a concrete initialized, unlocked mutex. -/
theorem TTASEventMutex_reinit_witness :
    ({ m_lock_word := 0, m_waiters := 0, m_event := 5 } :
        TTASEventMutex).m_event ≠ 0 ∧
    ({ m_lock_word := 0, m_waiters := 0, m_event := 5 } :
        TTASEventMutex).m_lock_word = MUTEX_STATE_UNLOCKED ∧
    (7 : Nat) ≠ 0 ∧
    TTASEventMutex.destroyAssertions
      { m_lock_word := 0, m_waiters := 0, m_event := 5 } = true ∧
    (TTASEventMutex.init 7
      ({ m_lock_word := 0, m_waiters := 0, m_event := 5 } :
        TTASEventMutex).destroy).m_event = 7 :=
  ⟨by decide, by decide, by decide,
    (TTASEventMutex_reinit_spec ⟨0, 0, 5⟩ 7 (by decide) (by decide) (by decide)).1,
    (TTASEventMutex_reinit_spec ⟨0, 0, 5⟩ 7 (by decide) (by decide) (by decide)).2.2.2.1⟩

/-- C9: a successful `my_rnd_ssl` call neither reads the LCG state for its
result (the result is the same whatever the state) nor writes it (the state
is returned unchanged), so a later `my_rnd` sees exactly the sequence it
would have seen without the intervening call. -/
theorem my_rnd_ssl_frame :
    (∀ (res : Nat) (st : my_rnd_struct), (my_rnd_ssl (some res) st).2 = st) ∧
    (∀ (res : Nat) (st st' : my_rnd_struct),
      (my_rnd_ssl (some res) st).1 = (my_rnd_ssl (some res) st').1) ∧
    (∀ (res : Nat) (st : my_rnd_struct),
      my_rnd (my_rnd_ssl (some res) st).2 = my_rnd st) :=
  ⟨fun _ _ => rfl, fun _ _ _ => rfl, fun _ _ => rfl⟩

/-- Helper: extensionality for configurations. -/
theorem config_ext {N : Nat} {a b : Config N}
    (h1 : a.lockWord = b.lockWord) (h2 : a.counter = b.counter)
    (h3 : ∀ t, a.threads t = b.threads t) : a = b := by
  cases a
  cases b
  simp only [Config.mk.injEq]
  exact ⟨h1, h2, funext h3⟩

/-- Helper: updating one thread exchanges its weight in the total. -/
theorem sum_update_weight {N : Nat} (f : Fin N → ThreadSt) (t : Fin N)
    (v : ThreadSt) :
    (∑ u, threadWeight (Function.update f t v u)) + threadWeight (f t) =
      (∑ u, threadWeight (f u)) + threadWeight v := by
  classical
  rw [← Finset.sum_erase_add Finset.univ
        (fun u => threadWeight (Function.update f t v u)) (Finset.mem_univ t),
      ← Finset.sum_erase_add Finset.univ
        (fun u => threadWeight (f u)) (Finset.mem_univ t)]
  have h1 : ∑ u ∈ Finset.univ.erase t, threadWeight (Function.update f t v u) =
      ∑ u ∈ Finset.univ.erase t, threadWeight (f u) :=
    Finset.sum_congr rfl fun u hu => by
      rw [Function.update_noteq (Finset.ne_of_mem_erase hu)]
  rw [h1, Function.update_same]
  omega

/-- Helper: the invariant holds initially. -/
theorem mutexInv_init (N : Nat) : MutexInv (initConfig N) := by
  refine ⟨?_, ?_, ?_⟩
  · intro t u ht _
    simp [holdsMutex, initConfig] at ht
  · intro _ t
    simp [holdsMutex, initConfig]
  · simp [initConfig, threadWeight]

/-- Helper: every step preserves the invariant. -/
theorem mutexInv_step {N K : Nat} {c c' : Config N}
    (h : MutexStep N K c c') (hinv : MutexInv c) : MutexInv c' := by
  obtain ⟨hexcl, hfree, hcount⟩ := hinv
  cases h with
  | acquire t w hpc hit hfl hw =>
    have key : ∀ x : Fin N,
        (Function.update c.threads t
          { pc := Pc.critical, iters := (c.threads t).iters } x).pc ≠
            Pc.acquiring → x = t := by
      intro x hx
      by_contra hne
      rw [Function.update_noteq hne] at hx
      exact (hfree hfl x) hx
    refine ⟨?_, ?_, ?_⟩
    · intro a b ha hb
      simp only [holdsMutex] at ha hb
      rw [key a ha, key b hb]
    · intro h0 x
      dsimp only at h0
      rcases hw with rfl | rfl
      · simp [MUTEX_STATE_LOCKED, MUTEX_STATE_UNLOCKED] at h0
      · simp [MUTEX_STATE_WAITERS, MUTEX_STATE_UNLOCKED] at h0
    · have hs := sum_update_weight c.threads t
        { pc := Pc.critical, iters := (c.threads t).iters }
      have w1 : threadWeight (c.threads t) = (c.threads t).iters := by
        simp [threadWeight, hpc]
      have w2 : threadWeight { pc := Pc.critical, iters := (c.threads t).iters } =
          (c.threads t).iters := by
        simp [threadWeight]
      dsimp only
      rw [w1, w2] at hs
      omega
  | acquireFail t w hpc hheld hw =>
    refine ⟨?_, ?_, ?_⟩
    · intro a b ha hb
      exact hexcl a b ha hb
    · intro h0 x
      dsimp only at h0
      rcases hw with rfl | rfl
      · exact absurd h0 hheld
      · simp [MUTEX_STATE_WAITERS, MUTEX_STATE_UNLOCKED] at h0
    · exact hcount
  | increment t hpc =>
    have down : ∀ x : Fin N,
        (Function.update c.threads t
          { pc := Pc.releasing, iters := (c.threads t).iters } x).pc ≠
            Pc.acquiring → holdsMutex c x := by
      intro x hx
      by_cases hxe : x = t
      · subst hxe
        simp [holdsMutex, hpc]
      · rw [Function.update_noteq hxe] at hx
        exact hx
    refine ⟨?_, ?_, ?_⟩
    · intro a b ha hb
      simp only [holdsMutex] at ha hb
      exact hexcl a b (down a ha) (down b hb)
    · intro h0 x _
      dsimp only at h0
      have : holdsMutex c t := by simp [holdsMutex, hpc]
      exact (hfree h0 t) this
    · have hs := sum_update_weight c.threads t
        { pc := Pc.releasing, iters := (c.threads t).iters }
      have w1 : threadWeight (c.threads t) = (c.threads t).iters := by
        simp [threadWeight, hpc]
      have w2 : threadWeight { pc := Pc.releasing, iters := (c.threads t).iters } =
          (c.threads t).iters + 1 := by
        simp [threadWeight]
      dsimp only
      rw [w1, w2] at hs
      omega
  | release t hpc =>
    have allAcq : ∀ x : Fin N,
        (Function.update c.threads t
          { pc := Pc.acquiring, iters := (c.threads t).iters + 1 } x).pc =
            Pc.acquiring := by
      intro x
      by_cases hxe : x = t
      · subst hxe
        rw [Function.update_same]
      · rw [Function.update_noteq hxe]
        by_contra hne
        have hxh : holdsMutex c x := hne
        have hth : holdsMutex c t := by simp [holdsMutex, hpc]
        exact hxe (hexcl x t hxh hth)
    refine ⟨?_, ?_, ?_⟩
    · intro a b ha hb
      simp only [holdsMutex] at ha
      exact absurd (allAcq a) ha
    · intro _ x hx
      simp only [holdsMutex] at hx
      exact hx (allAcq x)
    · have hs := sum_update_weight c.threads t
        { pc := Pc.acquiring, iters := (c.threads t).iters + 1 }
      have w1 : threadWeight (c.threads t) = (c.threads t).iters + 1 := by
        simp [threadWeight, hpc]
      have w2 : threadWeight { pc := Pc.acquiring, iters := (c.threads t).iters + 1 } =
          (c.threads t).iters + 1 := by
        simp [threadWeight]
      dsimp only
      rw [w1, w2] at hs
      omega

/-- Helper: the invariant holds in every reachable configuration. -/
theorem mutexInv_reachable {N K : Nat} (c : Config N)
    (h : MutexReachable N K c) : MutexInv c := by
  unfold MutexReachable at h
  induction h with
  | refl => exact mutexInv_init N
  | tail _ hstep ih => exact mutexInv_step hstep ih

/-- Helper: a complete two-thread, one-iteration interleaved run is
reachable and ends with both threads done and the counter at 2 — the step
relation is not vacuous. -/
theorem mutex_demo_run : MutexReachable 2 1 demoConfig := by
  have s1 : MutexStep 2 1 (initConfig 2) demoC1 := by
    have h := MutexStep.acquire (N := 2) (K := 1) (initConfig 2) 0
      MUTEX_STATE_LOCKED rfl (by decide) rfl (Or.inl rfl)
    have e : ({ lockWord := MUTEX_STATE_LOCKED,
                counter := (initConfig 2).counter,
                threads := Function.update (initConfig 2).threads 0
                  { pc := Pc.critical,
                    iters := ((initConfig 2).threads 0).iters } } : Config 2) =
        demoC1 :=
      config_ext rfl rfl (by intro x; fin_cases x <;> rfl)
    rwa [e] at h
  have s2 : MutexStep 2 1 demoC1 demoC2 := by
    have h := MutexStep.increment (N := 2) (K := 1) demoC1 0 rfl
    have e : ({ lockWord := demoC1.lockWord,
                counter := demoC1.counter + 1,
                threads := Function.update demoC1.threads 0
                  { pc := Pc.releasing,
                    iters := (demoC1.threads 0).iters } } : Config 2) =
        demoC2 :=
      config_ext rfl rfl (by intro x; fin_cases x <;> rfl)
    rwa [e] at h
  have s3 : MutexStep 2 1 demoC2 demoC3 := by
    have h := MutexStep.release (N := 2) (K := 1) demoC2 0 rfl
    have e : ({ lockWord := MUTEX_STATE_UNLOCKED,
                counter := demoC2.counter,
                threads := Function.update demoC2.threads 0
                  { pc := Pc.acquiring,
                    iters := (demoC2.threads 0).iters + 1 } } : Config 2) =
        demoC3 :=
      config_ext rfl rfl (by intro x; fin_cases x <;> rfl)
    rwa [e] at h
  have s4 : MutexStep 2 1 demoC3 demoC4 := by
    have h := MutexStep.acquire (N := 2) (K := 1) demoC3 1
      MUTEX_STATE_LOCKED rfl (by decide) rfl (Or.inl rfl)
    have e : ({ lockWord := MUTEX_STATE_LOCKED,
                counter := demoC3.counter,
                threads := Function.update demoC3.threads 1
                  { pc := Pc.critical,
                    iters := (demoC3.threads 1).iters } } : Config 2) =
        demoC4 :=
      config_ext rfl rfl (by intro x; fin_cases x <;> rfl)
    rwa [e] at h
  have s5 : MutexStep 2 1 demoC4 demoC5 := by
    have h := MutexStep.increment (N := 2) (K := 1) demoC4 1 rfl
    have e : ({ lockWord := demoC4.lockWord,
                counter := demoC4.counter + 1,
                threads := Function.update demoC4.threads 1
                  { pc := Pc.releasing,
                    iters := (demoC4.threads 1).iters } } : Config 2) =
        demoC5 :=
      config_ext rfl rfl (by intro x; fin_cases x <;> rfl)
    rwa [e] at h
  have s6 : MutexStep 2 1 demoC5 demoConfig := by
    have h := MutexStep.release (N := 2) (K := 1) demoC5 1 rfl
    have e : ({ lockWord := MUTEX_STATE_UNLOCKED,
                counter := demoC5.counter,
                threads := Function.update demoC5.threads 1
                  { pc := Pc.acquiring,
                    iters := (demoC5.threads 1).iters + 1 } } : Config 2) =
        demoConfig :=
      config_ext rfl rfl (by intro x; fin_cases x <;> rfl)
    rwa [e] at h
  exact Relation.ReflTransGen.tail (Relation.ReflTransGen.tail
    (Relation.ReflTransGen.tail (Relation.ReflTransGen.tail
      (Relation.ReflTransGen.tail (Relation.ReflTransGen.single s1) s2) s3)
        s4) s5) s6

/-- C1: in every reachable interleaving of `N ≥ 2` threads each running
`enter; counter++; exit` `K` times on one mutex (acquisition = an atomic
RMW on the lock word succeeding exactly on `UNLOCKED`, as in every
implementation behind the `PolicyMutex` facade), at most one thread holds
the mutex at any instant, and when all threads have completed their `K`
iterations the shared counter equals `N * K`. -/
theorem mutex_mutual_exclusion (N K : Nat) (hN : 2 ≤ N) (c : Config N)
    (hc : MutexReachable N K c) :
    (∀ t u : Fin N, holdsMutex c t → holdsMutex c u → t = u) ∧
    ((∀ t, (c.threads t).pc = Pc.acquiring ∧ (c.threads t).iters = K) →
      c.counter = N * K) := by
  obtain ⟨hexcl, _, hcount⟩ := mutexInv_reachable c hc
  refine ⟨hexcl, fun hdone => ?_⟩
  rw [hcount]
  have hw : ∀ t : Fin N, threadWeight (c.threads t) = K := fun t => by
    obtain ⟨h1, h2⟩ := hdone t
    simp [threadWeight, h1, h2]
  rw [Finset.sum_congr rfl (fun t _ => hw t)]
  simp [Finset.sum_const, Finset.card_univ, mul_comm]

/-- witness for C1: the complete two-thread run, one iteration each —
mutual exclusion holds in the final configuration and the counter is
`2 * 1`. -/
theorem mutex_mutual_exclusion_witness :
    (2 : Nat) ≤ 2 ∧
    (∀ t u : Fin 2, holdsMutex demoConfig t → holdsMutex demoConfig u → t = u) ∧
    demoConfig.counter = 2 * 1 :=
  ⟨by norm_num,
    (mutex_mutual_exclusion 2 1 (by norm_num) demoConfig mutex_demo_run).1,
    (mutex_mutual_exclusion 2 1 (by norm_num) demoConfig mutex_demo_run).2
      (fun _ => ⟨rfl, rfl⟩)⟩
